import Mathlib

/-!
A shallow embedding of the slice/frame selection logic of `med2image.py`.

The program converts a loaded NIfTI volume (a 3D numpy array of shape
(X, Y, Z) or a 4D array of shape (X, Y, Z, T)) to a sequence of per-slice
image files.  The interesting logic, embedded here, is:

* the constructor's parsing of the `sliceToConvert` / `frameToConvert`
  string arguments ("m" means middle, otherwise an integer; -1 means all)
  — lines 108–125 of `med2image.py`;
* the constructor's output-file-type resolution — lines 127–135;
* `med2image_nii.run` — lines 193–256: computing the frame range and the
  per-frame slice range, numpy extraction of the sub-arrays (with numpy's
  negative-index wrap-around and `IndexError` semantics), `np.rot90` of
  each extracted 2D slice, and the `%03d`-formatted output filenames;
* the `__main__` dispatch on the input-file extension — lines 379–400 —
  where only `.nii` / `.gz` files reach the NIfTI path; all other inputs
  get the base `med2image` class, whose `run` (lines 137–140) has an
  empty body.

NIfTI decoding and `pylab.imsave` are out of scope (black boxes); an
emitted "job" records the frame index (4D only), the slice index, the
rotated 2D array and the output filename, in emission order.  The second
component of a run's result records whether a numpy `IndexError` was
raised (`true`); jobs emitted before the error are kept, mirroring the
files already written when the exception propagates.
-/

/-- A 2D numeric array (a numpy array of shape `(rows, cols)`). -/
structure Mat (α : Type) where
  rows : Nat
  cols : Nat
  data : Fin rows → Fin cols → α

/-- Numpy `np.rot90(m)` (line 240): rotate a 2D array 90° counter-clockwise.
The result has shape `(cols, rows)` and its entry `(i, j)` is the entry
`(j, cols - 1 - i)` of the input (`Fin.rev i = cols - 1 - i`). -/
def rot90 {α : Type} (m : Mat α) : Mat α :=
  ⟨m.cols, m.rows, fun i j => m.data j i.rev⟩

/-- A 3D volume of shape `(nx, ny, nz)` = (X, Y, Z).  Entries outside the
shape are irrelevant to every embedded operation. -/
structure Vol3D (α : Type) where
  nx : Nat
  ny : Nat
  nz : Nat
  data : Nat → Nat → Nat → α

/-- A 4D volume of shape `(nx, ny, nz, nt)` = (X, Y, Z, T). -/
structure Vol4D (α : Type) where
  nx : Nat
  ny : Nat
  nz : Nat
  nt : Nat
  data : Nat → Nat → Nat → Nat → α

/-- Extraction `self._Vnp_3DVol[:,:,z]` for an already-normalised in-range `z`
(line 238): the 2D array of shape `(nx, ny)` at depth `z`. -/
def sliceAt {α : Type} (v : Vol3D α) (z : Nat) : Mat α :=
  ⟨v.nx, v.ny, fun x y => v.data x.val y.val z⟩

/-- Extraction `self._Vnp_4DVol[:,:,:,t]` for an already-normalised in-range `t`
(line 225): the 3D sub-volume at frame `t`. -/
def frameVol {α : Type} (v : Vol4D α) (t : Nat) : Vol3D α :=
  ⟨v.nx, v.ny, v.nz, fun x y z => v.data x y z t⟩

/-- The loaded data together with its dimensionality flag: `_b_3D` with
`_Vnp_3DVol`, or `_b_4D` with `_Vnp_4DVol` (lines 93–96, 182–191). -/
inductive Volume (α : Type) where
  | v3 (v : Vol3D α)
  | v4 (v : Vol4D α)

/-- Count `frames` as computed by `run` (lines 201, 208–210): initialised to 1
and overwritten with `shape[3]` when the volume is 4D. -/
def frameCountOf {α : Type} : Volume α → Nat
  | .v3 _ => 1
  | .v4 v => v.nt

/-- Length `shape[2]` of the (per-frame) 3D volume (lines 226, 231); for a 4D
volume every frame's sub-volume has the same Z extent. -/
def volNz {α : Type} : Volume α → Nat
  | .v3 v => v.nz
  | .v4 v => v.nz

/-- A frame or slice selector as parsed by the constructor
(lines 117–125): the string `"m"` (case-insensitively) sets the
`_b_convertMiddle*` flag (`mid`); any other string is `int(...)`-parsed
to an integer (`idx i`), where `-1` is the "convert all" sentinel
(the CLI default, lines 344 and 348). -/
inductive Selector where
  | mid
  | idx (i : Int)
deriving DecidableEq

/-- Python's `range(a, b)` over integers: `[a, a+1, ..., b-1]`, empty
when `b ≤ a`. -/
def intRange (a b : Int) : List Int :=
  (List.range (b - a).toNat).map (fun (k : Nat) => a + (k : Int))

/-- The start/end bounds computed by `run` for one axis from its selector
and the axis length.  This embeds both the frame block (lines 214–221:
`if _b_convertMiddleFrame: _frameToConvert = int(frames/2)`, then
`if _frameToConvert == -1: frameEnd = frames else frameStart/frameEnd =
_frameToConvert, _frameToConvert + 1`) and the structurally identical
slice block (lines 227–234).  The start variable is initialised to 0
(lines 202, 205) and is only left at 0 when the `-1` branch is taken. -/
def selBounds (sel : Selector) (count : Nat) : Int × Int :=
  let toConvert : Int :=
    match sel with
    | .mid => (count : Int) / 2
    | .idx i => i
  if toConvert = -1 then (0, (count : Int)) else (toConvert, toConvert + 1)

/-- Left-pad a string with `'0'` up to width `w`. -/
def padZeros (w : Nat) (s : String) : String :=
  if s.length < w then String.mk (List.replicate (w - s.length) '0') ++ s else s

/-- Python's `'%03d' % n`: zero-padded to total width 3; for a negative
`n` the sign counts against the width and the zeros follow it, so
`fmt03d (-2) = "-02"`. -/
def fmt03d (n : Int) : String :=
  if n < 0 then "-" ++ padZeros 2 (toString n.natAbs) else padZeros 3 (toString n.natAbs)

/-- One emitted output file: the frame index (`some f` on the 4D path,
`none` on the 3D path), the slice index as it appeared in the loop, the
rotated 2D array passed to `pylab.imsave`, and the output path. -/
structure Job (α : Type) where
  frame : Option Int
  slice : Int
  image : Mat α
  filename : String

/-- The output path (lines 242–252): `'%s/%s-frame%03d-slice%03d.%s'`
with `(outputDir, stem, f, i, type)` when `_b_4D`, else
`'%s/%s-slice%03d.%s'` with `(outputDir, stem, i, type)`.  The stem is
used verbatim (its own extension, if any, is not stripped) and the
resolved type is appended after a literal `'.'`. -/
def jobFilename (dir stem ftype : String) (fOpt : Option Int) (i : Int) : String :=
  match fOpt with
  | some f => dir ++ "/" ++ stem ++ "-frame" ++ fmt03d f ++ "-slice" ++ fmt03d i ++ "." ++ ftype
  | none => dir ++ "/" ++ stem ++ "-slice" ++ fmt03d i ++ "." ++ ftype

/-- The job built for loop index `i` (lines 238–256): numpy normalises a
negative in-range index by adding `nz`; the extracted slice is rotated by
`np.rot90` and written to the formatted path. -/
def emitJob {α : Type} (v : Vol3D α) (fOpt : Option Int) (dir stem ftype : String)
    (i : Int) : Job α :=
  { frame := fOpt
    slice := i
    image := rot90 (sliceAt v (if i < 0 then ((v.nz : Int) + i).toNat else i.toNat))
    filename := jobFilename dir stem ftype fOpt i }

/-- The inner loop `for i in range(sliceStart, sliceEnd)` (lines 237–256).
`self._Vnp_3DVol[:,:,i]` raises `IndexError` when `i ≥ nz` or `i < -nz`,
ending the run with the jobs emitted so far; otherwise the slice's job is
emitted and the loop continues. -/
def sliceLoop {α : Type} (v : Vol3D α) (fOpt : Option Int) (dir stem ftype : String) :
    List Int → List (Job α) × Bool
  | [] => ([], false)
  | i :: is =>
    if (v.nz : Int) ≤ i ∨ i < -(v.nz : Int) then ([], true)
    else
      let r := sliceLoop v fOpt dir stem ftype is
      (emitJob v fOpt dir stem ftype i :: r.1, r.2)

/-- The outer loop `for f in range(frameStart, frameEnd)` (lines 223–256).
On the 3D path the loop variable `f` is never used: `_Vnp_3DVol` is the
loaded volume itself and filenames carry no frame field.  On the 4D path
`_Vnp_4DVol[:,:,:,f]` raises `IndexError` when `f ≥ nt` or `f < -nt`
(negative in-range `f` wraps), else the frame's 3D sub-volume is taken
and the slice bounds are recomputed from its `shape[2]` (lines 226–234). -/
def frameLoop {α : Type} (vol : Volume α) (sliceSel : Selector) (dir stem ftype : String) :
    List Int → List (Job α) × Bool
  | [] => ([], false)
  | f :: fs =>
    match vol with
    | .v3 v =>
      let b := selBounds sliceSel v.nz
      let r := sliceLoop v none dir stem ftype (intRange b.1 b.2)
      if r.2 then (r.1, true)
      else
        let r2 := frameLoop vol sliceSel dir stem ftype fs
        (r.1 ++ r2.1, r2.2)
    | .v4 v =>
      if (v.nt : Int) ≤ f ∨ f < -(v.nt : Int) then ([], true)
      else
        let v3 := frameVol v (if f < 0 then ((v.nt : Int) + f).toNat else f.toNat)
        let b := selBounds sliceSel v3.nz
        let r := sliceLoop v3 (some f) dir stem ftype (intRange b.1 b.2)
        if r.2 then (r.1, true)
        else
          let r2 := frameLoop vol sliceSel dir stem ftype fs
          (r.1 ++ r2.1, r2.2)

/-- Function `med2image_nii.run` (lines 193–256): `frames` is 1 for a 3D volume
and `shape[3]` for a 4D one (lines 201, 208–210); the frame bounds come
from the frame selector (lines 214–221) and the loop body emits the
per-frame slice jobs.  Directory creation, logging and `pylab.imsave`
are out-of-scope side effects. -/
def runNii {α : Type} (vol : Volume α) (frameSel sliceSel : Selector)
    (dir stem ftype : String) : List (Job α) × Bool :=
  let b := selBounds frameSel (frameCountOf vol)
  frameLoop vol sliceSel dir stem ftype (intRange b.1 b.2)

/-- The list of frame indices iterated by the outer loop (line 223). -/
def frameRangeOf {α : Type} (vol : Volume α) (frameSel : Selector) : List Int :=
  intRange (selBounds frameSel (frameCountOf vol)).1 (selBounds frameSel (frameCountOf vol)).2

/-- The list of slice indices iterated by the inner loop for each frame
(line 237); it is the same for every frame of the volume. -/
def sliceRangeOf {α : Type} (vol : Volume α) (sliceSel : Selector) : List Int :=
  intRange (selBounds sliceSel (volNz vol)).1 (selBounds sliceSel (volNz vol)).2

/-- Index of the last occurrence of `c` in the list, if any
(Python's `str.rfind`, restricted to single characters). -/
def lastIdxOf (c : Char) : List Char → Option Nat
  | [] => none
  | a :: as =>
    match lastIdxOf c as with
    | some k => some (k + 1)
    | none => if a = c then some 0 else none

/-- Python `os.path.splitext` (POSIX): split at the rightmost `'.'` that lies
after the rightmost `'/'`, provided some character of the basename
strictly before that dot is not itself a dot (so `".bashrc"` has no
extension); otherwise the extension is empty. -/
def splitext (p : String) : String × String :=
  let cs := p.data
  let sepIndex : Int :=
    match lastIdxOf '/' cs with
    | some k => (k : Int)
    | none => -1
  let dotIndex : Int :=
    match lastIdxOf '.' cs with
    | some k => (k : Int)
    | none => -1
  if sepIndex < dotIndex then
    let start := (sepIndex + 1).toNat
    let dot := dotIndex.toNat
    if ((cs.drop start).take (dot - start)).any (fun ch => ch ≠ '.') then
      (⟨cs.take dot⟩, ⟨cs.drop dot⟩)
    else (p, "")
  else (p, "")

/-- The constructor's output-file-type resolution (lines 127–135), with
Python's `len(...)` truthiness rendered as comparison with `""`:
`splitext` the stem; if an explicit type was supplied, overwrite the
extension variable with `'.' + type`; if the extension variable is
non-empty and no explicit type was supplied, the type becomes that
extension (keeping its leading dot); if both are empty, the type becomes
`'.png'`. -/
def resolveOutputFileType (outputFileStem outputFileType : String) : String :=
  let ext := (splitext outputFileStem).2
  let ext := if outputFileType ≠ "" then "." ++ outputFileType else ext
  let t := if ext ≠ "" ∧ outputFileType = "" then ext else outputFileType
  if t = "" ∧ ext = "" then ".png" else t

/-- The `__main__` extension dispatch (lines 379–382): an input file is
routed to the NIfTI path exactly when its `splitext` extension is
`.nii` or `.gz`. -/
def isNiftiExt (inputFile : String) : Bool :=
  (splitext inputFile).2 == ".nii" || (splitext inputFile).2 == ".gz"

/-- A `sliceToConvert` / `frameToConvert` value as seen by the
constructor: either the integer default `-1` of line 85 (the keyword was
never passed in `kwargs`, lines 108–115), or a command-line string,
which lines 117–125 parse into a `Selector`. -/
inductive SelArg where
  | intDefault
  | str (sel : Selector)

/-- Lines 117 and 122 call `.lower()` on the stored value.  A string
parses to its `Selector`; the untouched integer default has no `.lower`
method, so Python raises `AttributeError` (`none`). -/
def parseSelArg : SelArg → Option Selector
  | .intDefault => none
  | .str sel => some sel

/-- Result of one `__main__` invocation: either the constructor
completed and `run` produced jobs plus an `IndexError` flag, or the
constructor itself raised `AttributeError` at line 117/122 before any
`run` method was reached. -/
inductive RunOutcome (α : Type) where
  | ok (jobs : List (Job α)) (indexErr : Bool)
  | attrErr

/-- The `__main__` run (lines 379–406).  A `.nii`/`.gz` input builds
`med2image_nii` with both selector kwargs passed as strings (lines
384–392), so the constructor parses them and `run` executes.  Every
other input gets the base `med2image` class, but its constructor call
(lines 395–400) omits the `frameToConvert` kwarg: line 117 then calls
`.lower()` on the integer default `-1` and raises `AttributeError`, so
the (empty-bodied, lines 137–140) generic `run` is never reached. -/
def mainRun {α : Type} (inputFile : String) (vol : Volume α)
    (frameSel sliceSel : Selector) (dir stem ftype : String) : RunOutcome α :=
  if isNiftiExt inputFile then
    match parseSelArg (SelArg.str frameSel), parseSelArg (SelArg.str sliceSel) with
    | some fsel, some ssel =>
      let r := runNii vol fsel ssel dir stem ftype
      RunOutcome.ok r.1 r.2
    | _, _ => RunOutcome.attrErr
  else
    match parseSelArg SelArg.intDefault, parseSelArg (SelArg.str sliceSel) with
    | some _, some _ => RunOutcome.ok [] false
    | _, _ => RunOutcome.attrErr

/-- A concrete 3D volume of shape (1, 1, 3), used for evaluations. -/
def vol113 : Vol3D Int := ⟨1, 1, 3, fun _ _ _ => 0⟩

/-- A concrete 3D volume of shape (1, 1, 2), used for evaluations. -/
def vol112 : Vol3D Int := ⟨1, 1, 2, fun _ _ _ => 0⟩

/-- A concrete 3D volume of shape (1, 1, 1), used for evaluations. -/
def vol111 : Vol3D Int := ⟨1, 1, 1, fun _ _ _ => 0⟩

/-- A concrete 3D volume with an empty Z axis, shape (1, 1, 0). -/
def vol110 : Vol3D Int := ⟨1, 1, 0, fun _ _ _ => 0⟩

/-- A concrete 4D volume of shape (1, 1, 2, 2), used for evaluations. -/
def vol1122 : Vol4D Int := ⟨1, 1, 2, 2, fun _ _ _ _ => 0⟩

/-! ## Basic lemmas about the embedded operations -/

theorem intRange_succ_self (a : Int) : intRange a (a + 1) = [a] := by
  unfold intRange
  have h : (a + 1 - a).toNat = 1 := by omega
  rw [h]
  simp [List.range_succ]

theorem intRange_zero_one : intRange 0 1 = [0] := by
  have h := intRange_succ_self 0
  norm_num at h
  exact h

theorem mem_intRange {a b i : Int} (h : i ∈ intRange a b) : a ≤ i ∧ i < b := by
  unfold intRange at h
  obtain ⟨k, hk, rfl⟩ := List.mem_map.1 h
  have hk' := List.mem_range.1 hk
  omega

theorem intRange_zero_natCast (n : Nat) :
    intRange 0 (n : Int) = (List.range n).map (fun (k : Nat) => (k : Int)) := by
  unfold intRange
  simp

theorem length_intRange_zero (n : Nat) : (intRange 0 (n : Int)).length = n := by
  unfold intRange
  simp

theorem sliceLoop_ok {α : Type} (v : Vol3D α) (fOpt : Option Int) (dir stem ftype : String) :
    ∀ l : List Int, (∀ i ∈ l, -(v.nz : Int) ≤ i ∧ i < (v.nz : Int)) →
      sliceLoop v fOpt dir stem ftype l = (l.map (emitJob v fOpt dir stem ftype), false)
  | [], _ => rfl
  | i :: is, h => by
    have hi := h i (List.mem_cons_self i is)
    have hrec := sliceLoop_ok v fOpt dir stem ftype is
      (fun j hj => h j (List.mem_cons_of_mem i hj))
    simp only [sliceLoop]
    rw [if_neg (by omega)]
    rw [hrec]
    simp

theorem sliceLoop_length {α : Type} (v : Vol3D α) (fOpt : Option Int) (dir stem ftype : String) :
    ∀ l : List Int, (sliceLoop v fOpt dir stem ftype l).2 = false →
      (sliceLoop v fOpt dir stem ftype l).1.length = l.length
  | [], _ => rfl
  | i :: is, h => by
    by_cases hc : (v.nz : Int) ≤ i ∨ i < -(v.nz : Int)
    · simp only [sliceLoop, if_pos hc] at h
      exact Bool.noConfusion h
    · simp only [sliceLoop, if_neg hc] at h ⊢
      have hrec := sliceLoop_length v fOpt dir stem ftype is h
      simp [hrec]

theorem sliceLoop_nz_zero {α : Type} (v : Vol3D α) (fOpt : Option Int) (dir stem ftype : String)
    (hz : v.nz = 0) : ∀ l : List Int, (sliceLoop v fOpt dir stem ftype l).1 = []
  | [] => rfl
  | i :: _ => by
    simp only [sliceLoop]
    rw [if_pos (by omega)]

theorem frameLoop_v3_single {α : Type} (v : Vol3D α) (sliceSel : Selector)
    (dir stem ftype : String) (f : Int) :
    frameLoop (Volume.v3 v) sliceSel dir stem ftype [f] =
      sliceLoop v none dir stem ftype (sliceRangeOf (Volume.v3 v) sliceSel) := by
  have hrange : sliceRangeOf (Volume.v3 v) sliceSel =
      intRange (selBounds sliceSel v.nz).1 (selBounds sliceSel v.nz).2 := rfl
  simp only [frameLoop, hrange]
  rcases h : sliceLoop v none dir stem ftype
      (intRange (selBounds sliceSel v.nz).1 (selBounds sliceSel v.nz).2) with ⟨js, err⟩
  cases err <;> simp

theorem selBounds_idx_ne {i : Int} (count : Nat) (hi : i ≠ -1) :
    selBounds (Selector.idx i) count = (i, i + 1) := by
  simp only [selBounds]
  rw [if_neg hi]

theorem frameRange_v3_single {α : Type} (v : Vol3D α) (frameSel : Selector) :
    ∃ f : Int, frameRangeOf (Volume.v3 v) frameSel = [f] := by
  have hmid : selBounds Selector.mid 1 = (0, 1) := by decide
  have hall : selBounds (Selector.idx (-1)) 1 = (0, 1) := by decide
  have hcount : frameCountOf (Volume.v3 v) = 1 := rfl
  rcases frameSel with _ | i
  · refine ⟨0, ?_⟩
    unfold frameRangeOf
    rw [hcount, hmid]
    exact intRange_zero_one
  · by_cases hi : i = -1
    · subst hi
      refine ⟨0, ?_⟩
      unfold frameRangeOf
      rw [hcount, hall]
      exact intRange_zero_one
    · refine ⟨i, ?_⟩
      unfold frameRangeOf
      rw [hcount, selBounds_idx_ne 1 hi]
      exact intRange_succ_self i

theorem runNii_v3 {α : Type} (v : Vol3D α) (frameSel sliceSel : Selector)
    (dir stem ftype : String) :
    runNii (Volume.v3 v) frameSel sliceSel dir stem ftype =
      sliceLoop v none dir stem ftype (sliceRangeOf (Volume.v3 v) sliceSel) := by
  obtain ⟨f, hf⟩ := frameRange_v3_single v frameSel
  rw [show runNii (Volume.v3 v) frameSel sliceSel dir stem ftype =
      frameLoop (Volume.v3 v) sliceSel dir stem ftype (frameRangeOf (Volume.v3 v) frameSel)
      from rfl]
  rw [hf]
  exact frameLoop_v3_single v sliceSel dir stem ftype f

/-! ## Claim theorems -/

/-- C9: the per-slice rotation applied before output (`np.rot90`, line
240) is a pure 90° counter-clockwise rotation: for every 2D array of
shape (R, C) the rotated array has shape (C, R), and applying the
rotation four times returns the original array. -/
theorem rot90_shape_period {α : Type} (m : Mat α) :
    ((rot90 m).rows = m.cols ∧ (rot90 m).cols = m.rows) ∧
      rot90 (rot90 (rot90 (rot90 m))) = m := by
  refine ⟨⟨rfl, rfl⟩, ?_⟩
  rcases m with ⟨r, c, d⟩
  show Mat.mk r c (fun i j => d i.rev.rev j.rev.rev) = Mat.mk r c d
  have h : (fun (i : Fin r) (j : Fin c) => d i.rev.rev j.rev.rev) = d := by
    funext i j
    rw [Fin.rev_rev, Fin.rev_rev]
  rw [h]

/-- C3: for every positive count `n` the Middle selector selects exactly
the single index `n / 2` (integer floor division), covering both the odd
case (the exact middle) and the even case (the upper middle).  Both the
frame block (lines 214–221) and the slice block (lines 227–234) of `run`
compute their index range through `selBounds`, so this covers frames and
slices alike. -/
theorem middle_selector_floor_half (n : Nat) (h : 0 < n) :
    intRange (selBounds Selector.mid n).1 (selBounds Selector.mid n).2 =
      [((n / 2 : Nat) : Int)] := by
  have hdiv : (n : Int) / 2 = ((n / 2 : Nat) : Int) := by
    norm_cast
  have hne : ((n / 2 : Nat) : Int) ≠ -1 := by omega
  simp only [selBounds]
  rw [hdiv, if_neg hne]
  exact intRange_succ_self _

/-- Witness for C3 at the odd count 5 (middle index 2) and the even
count 4 (upper-middle index 2, not 1). -/
theorem middle_selector_floor_half_witness :
    (0 < 5 ∧ intRange (selBounds Selector.mid 5).1 (selBounds Selector.mid 5).2 = [2]) ∧
    (0 < 4 ∧ intRange (selBounds Selector.mid 4).1 (selBounds Selector.mid 4).2 = [2]) :=
  ⟨⟨by decide, middle_selector_floor_half 5 (by decide)⟩,
   ⟨by decide, middle_selector_floor_half 4 (by decide)⟩⟩

/-- C8: for a 3D volume the frame selector is ignored — any two frame
selectors give the same run result (same jobs, same order, same
filenames, same error flag), because the outer loop runs exactly once
and its loop variable is unused on the 3D path. -/
theorem frame_selector_ignored_3d {α : Type} (v : Vol3D α) (fsel1 fsel2 ssel : Selector)
    (dir stem ftype : String) :
    runNii (Volume.v3 v) fsel1 ssel dir stem ftype =
      runNii (Volume.v3 v) fsel2 ssel dir stem ftype := by
  rw [runNii_v3, runNii_v3]

/-- Counterexample to C7 as stated: on the non-NIfTI input `scan.dcm`
the program does not complete as a silent no-op — the generic
`med2image` constructor raises `AttributeError` (line 117 calls
`.lower()` on the integer default `-1`, because the `__main__` generic
call of lines 395–400 omits the `frameToConvert` kwarg), before the
empty `run` body is ever reached. -/
theorem non_nifti_claim_cex :
    mainRun "scan.dcm" (Volume.v3 vol113) Selector.mid Selector.mid "d" "s" "png" =
      RunOutcome.attrErr ∧
    ∀ (jobs : List (Job Int)) (err : Bool),
      mainRun "scan.dcm" (Volume.v3 vol113) Selector.mid Selector.mid "d" "s" "png" ≠
        RunOutcome.ok jobs err := by
  have h : mainRun "scan.dcm" (Volume.v3 vol113) Selector.mid Selector.mid "d" "s" "png" =
      RunOutcome.attrErr := by
    have hfalse : isNiftiExt "scan.dcm" = false := by decide
    unfold mainRun
    rw [hfalse]
    rfl
  exact ⟨h, fun jobs err hcontra => RunOutcome.noConfusion (h ▸ hcontra)⟩

/-- C7 (amended): an input file whose `splitext` extension is neither
`.nii` nor `.gz` is routed to the generic `med2image` path and produces
no slice output, but not silently: because the `__main__` generic
constructor call omits `frameToConvert`, the constructor raises
`AttributeError` on the integer default `-1` (line 117) before the
generic `run` (whose body is empty) is reached — the run fails, it does
not complete as a no-op. -/
theorem non_nifti_attr_error {α : Type} (inputFile : String) (vol : Volume α)
    (fsel ssel : Selector) (dir stem ftype : String)
    (h1 : (splitext inputFile).2 ≠ ".nii") (h2 : (splitext inputFile).2 ≠ ".gz") :
    mainRun inputFile vol fsel ssel dir stem ftype = RunOutcome.attrErr := by
  have hfalse : isNiftiExt inputFile = false := by
    unfold isNiftiExt
    simp only [Bool.or_eq_false_iff, beq_eq_false_iff_ne, ne_eq]
    exact ⟨h1, h2⟩
  unfold mainRun
  rw [hfalse]
  rfl

/-- Witness for C7 (amended) at the concrete input file name
`volume.mgz`. -/
theorem non_nifti_attr_error_witness :
    ((splitext "volume.mgz").2 ≠ ".nii" ∧ (splitext "volume.mgz").2 ≠ ".gz") ∧
      mainRun "volume.mgz" (Volume.v3 vol112) Selector.mid Selector.mid "d" "s" "png" =
        RunOutcome.attrErr :=
  ⟨⟨by decide, by decide⟩,
   non_nifti_attr_error "volume.mgz" (Volume.v3 vol112) Selector.mid Selector.mid "d" "s" "png"
     (by decide) (by decide)⟩

theorem sliceRange_v3_all {α : Type} (v : Vol3D α) :
    sliceRangeOf (Volume.v3 v) (Selector.idx (-1)) = intRange 0 (v.nz : Int) := rfl

theorem runNii_v3_all {α : Type} (v : Vol3D α) (dir stem ftype : String) :
    runNii (Volume.v3 v) (Selector.idx (-1)) (Selector.idx (-1)) dir stem ftype =
      ((intRange 0 (v.nz : Int)).map (emitJob v none dir stem ftype), false) := by
  rw [runNii_v3, sliceRange_v3_all]
  apply sliceLoop_ok
  intro i hi
  have := mem_intRange hi
  omega

/-- C1: for every 3D volume with `Z > 0` slices and slice selector All
(`sliceToConvert = -1`), the run raises no error and emits exactly `Z`
jobs, one per slice index `0 .. Z-1` in ascending order, the job for
slice `z` having filename `dir/stem-slice{z:03d}.{ftype}`. -/
theorem run3D_all_slices {α : Type} (v : Vol3D α) (dir stem ftype : String)
    (h : 0 < v.nz) :
    (runNii (Volume.v3 v) (Selector.idx (-1)) (Selector.idx (-1)) dir stem ftype).2 = false ∧
    (runNii (Volume.v3 v) (Selector.idx (-1)) (Selector.idx (-1)) dir stem ftype).1.length = v.nz ∧
    (runNii (Volume.v3 v) (Selector.idx (-1)) (Selector.idx (-1)) dir stem ftype).1.map Job.slice =
      (List.range v.nz).map (fun (z : Nat) => (z : Int)) ∧
    ∀ j ∈ (runNii (Volume.v3 v) (Selector.idx (-1)) (Selector.idx (-1)) dir stem ftype).1,
      j.filename = dir ++ "/" ++ stem ++ "-slice" ++ fmt03d j.slice ++ "." ++ ftype := by
  rw [runNii_v3_all]
  refine ⟨rfl, ?_, ?_, ?_⟩
  · simp [length_intRange_zero]
  · rw [intRange_zero_natCast, List.map_map, List.map_map]
    rfl
  · intro j hj
    obtain ⟨i, hi, rfl⟩ := List.mem_map.1 hj
    rfl

/-- Witness for C1 on the concrete volume of shape (1, 1, 2). -/
theorem run3D_all_slices_witness :
    0 < vol112.nz ∧
    ((runNii (Volume.v3 vol112) (Selector.idx (-1)) (Selector.idx (-1)) "d" "s" "png").2 = false ∧
     (runNii (Volume.v3 vol112) (Selector.idx (-1)) (Selector.idx (-1)) "d" "s" "png").1.length =
       vol112.nz ∧
     (runNii (Volume.v3 vol112) (Selector.idx (-1)) (Selector.idx (-1)) "d" "s" "png").1.map
       Job.slice = (List.range vol112.nz).map (fun (z : Nat) => (z : Int)) ∧
     ∀ j ∈ (runNii (Volume.v3 vol112) (Selector.idx (-1)) (Selector.idx (-1)) "d" "s" "png").1,
       j.filename = "d" ++ "/" ++ "s" ++ "-slice" ++ fmt03d j.slice ++ "." ++ "png") :=
  ⟨by decide, run3D_all_slices vol112 "d" "s" "png" (by decide)⟩

/-- C10: for a 3D volume with `Z` slices and an explicit negative slice
index `-Z ≤ i ≤ -2` (note `-1` is the All sentinel), the run does not
fail: it emits exactly one job whose 2D array is the rotated slice at
the wrapped index `Z + i` and whose filename embeds the negative value
itself, `'%03d' % (-2)` being `"-02"`. -/
theorem negative_slice_wrap {α : Type} (v : Vol3D α) (dir stem ftype : String) (i : Int)
    (h1 : -(v.nz : Int) ≤ i) (h2 : i ≤ -2) :
    runNii (Volume.v3 v) (Selector.idx (-1)) (Selector.idx i) dir stem ftype =
      ([{ frame := none, slice := i,
          image := rot90 (sliceAt v ((v.nz : Int) + i).toNat),
          filename := dir ++ "/" ++ stem ++ "-slice" ++ fmt03d i ++ "." ++ ftype }], false) ∧
    fmt03d (-2) = "-02" := by
  constructor
  · rw [runNii_v3]
    have hne : i ≠ -1 := by omega
    have hrange : sliceRangeOf (Volume.v3 v) (Selector.idx i) = [i] := by
      unfold sliceRangeOf
      rw [show volNz (Volume.v3 v) = v.nz from rfl, selBounds_idx_ne v.nz hne]
      exact intRange_succ_self i
    rw [hrange]
    simp only [sliceLoop]
    rw [if_neg (by omega)]
    simp only [emitJob, jobFilename]
    rw [if_pos (by omega : i < 0)]
  · decide

/-- Witness for C10: slice index -2 on the shape-(1,1,3) volume wraps to
index 1. -/
theorem negative_slice_wrap_witness :
    (-(vol113.nz : Int) ≤ -2 ∧ (-2 : Int) ≤ -2) ∧
    (runNii (Volume.v3 vol113) (Selector.idx (-1)) (Selector.idx (-2)) "d" "s" "png" =
      ([{ frame := none, slice := -2,
          image := rot90 (sliceAt vol113 ((vol113.nz : Int) + -2).toNat),
          filename := "d" ++ "/" ++ "s" ++ "-slice" ++ fmt03d (-2) ++ "." ++ "png" }], false) ∧
     fmt03d (-2) = "-02") :=
  ⟨by decide, negative_slice_wrap vol113 "d" "s" "png" (-2) (by decide) (by decide)⟩

/-- Counterexample to C4 as stated: the explicit slice index -2 on the
shape-(1,1,3) volume lies outside `[0, 3)`, yet the run does not fail
and emits one job (numpy wraps negative in-range indices). -/
theorem index_oob_claim_cex :
    (runNii (Volume.v3 vol113) (Selector.idx (-1)) (Selector.idx (-2)) "d" "s" "png").2 =
      false ∧
    (runNii (Volume.v3 vol113) (Selector.idx (-1)) (Selector.idx (-2)) "d" "s" "png").1.length =
      1 := by
  decide

/-- Existence of a leading frame index 0 in a non-empty All range. -/
theorem intRange_zero_pos_cons (n : Nat) (h : 0 < n) :
    ∃ rest : List Int, intRange 0 (n : Int) = 0 :: rest := by
  obtain ⟨m, rfl⟩ : ∃ m, n = m + 1 := ⟨n - 1, by omega⟩
  refine ⟨(List.range m).map (fun (k : Nat) => ((k + 1 : Nat) : Int)), ?_⟩
  rw [intRange_zero_natCast, List.range_succ_eq_map, List.map_cons, List.map_map]
  rfl

/-- One 4D frame step whose slice range is the out-of-range singleton
`[i]`: the slice extraction raises `IndexError` on the very first job,
so the whole loop stops with no jobs. -/
theorem frameLoop_v4_cons_slice_oob {α : Type} (v : Vol4D α) (dir stem ftype : String)
    (i : Int) (hne : i ≠ -1) (hoob : (v.nz : Int) ≤ i ∨ i < -(v.nz : Int))
    (hnt : 0 < v.nt) (rest : List Int) :
    frameLoop (Volume.v4 v) (Selector.idx i) dir stem ftype (0 :: rest) = ([], true) := by
  have hrng : intRange (selBounds (Selector.idx i) v.nz).1
      (selBounds (Selector.idx i) v.nz).2 = [i] := by
    rw [selBounds_idx_ne v.nz hne]
    exact intRange_succ_self i
  have hsl : sliceLoop (frameVol v ((0 : Int)).toNat) (some 0) dir stem ftype [i] =
      ([], true) := by
    simp only [sliceLoop]
    rw [if_pos (show ((frameVol v ((0 : Int)).toNat).nz : Int) ≤ i ∨
      i < -((frameVol v ((0 : Int)).toNat).nz : Int) from hoob)]
  simp only [frameLoop]
  rw [if_neg (by omega : ¬((v.nt : Int) ≤ 0 ∨ (0 : Int) < -(v.nt : Int)))]
  rw [if_neg (by omega : ¬(0 : Int) < 0)]
  rw [show (frameVol v ((0 : Int)).toNat).nz = v.nz from rfl]
  rw [hrng, hsl]
  simp

/-- All frames of an in-range frame list succeed when the slice range is
the in-range singleton `[i]`: no `IndexError` is raised. -/
theorem frameLoop_v4_slice_single_ok {α : Type} (v : Vol4D α) (dir stem ftype : String)
    (i : Int) (hne : i ≠ -1) (hin : -(v.nz : Int) ≤ i ∧ i < (v.nz : Int)) :
    ∀ fl : List Int, (∀ f ∈ fl, 0 ≤ f ∧ f < (v.nt : Int)) →
      (frameLoop (Volume.v4 v) (Selector.idx i) dir stem ftype fl).2 = false
  | [], _ => rfl
  | f :: fs, h => by
    have hf := h f (List.mem_cons_self f fs)
    have hrec := frameLoop_v4_slice_single_ok v dir stem ftype i hne hin fs
      (fun j hj => h j (List.mem_cons_of_mem f hj))
    have hrng : intRange (selBounds (Selector.idx i) v.nz).1
        (selBounds (Selector.idx i) v.nz).2 = [i] := by
      rw [selBounds_idx_ne v.nz hne]
      exact intRange_succ_self i
    simp only [frameLoop]
    rw [if_neg (by omega : ¬((v.nt : Int) ≤ f ∨ f < -(v.nt : Int)))]
    rw [if_neg (by omega : ¬ f < 0)]
    rw [show (frameVol v f.toNat).nz = v.nz from rfl]
    rw [hrng]
    rw [sliceLoop_ok (frameVol v f.toNat) (some f) dir stem ftype [i]
      (fun j hj => by rw [List.mem_singleton] at hj; subst hj; exact hin)]
    simp [hrec]

/-- A single in-range (possibly negative, wrapping) frame with slice
selector All raises no `IndexError`. -/
theorem frameLoop_v4_single_frame_all {α : Type} (v : Vol4D α) (dir stem ftype : String)
    (f : Int) (hb : ¬((v.nt : Int) ≤ f ∨ f < -(v.nt : Int))) :
    (frameLoop (Volume.v4 v) (Selector.idx (-1)) dir stem ftype [f]).2 = false := by
  simp only [frameLoop]
  rw [if_neg hb]
  rw [show selBounds (Selector.idx (-1))
      (frameVol v (if f < 0 then ((v.nt : Int) + f).toNat else f.toNat)).nz =
      (0, ((frameVol v (if f < 0 then ((v.nt : Int) + f).toNat else f.toNat)).nz : Int))
      from rfl]
  rw [sliceLoop_ok (frameVol v (if f < 0 then ((v.nt : Int) + f).toNat else f.toNat))
    (some f) dir stem ftype _
    (fun j hj => by have := mem_intRange hj; omega)]
  simp

/-- C4 (amended): an explicit Index `i ≠ -1` fails with a numpy
`IndexError`, having emitted zero jobs, exactly when `i ≥ count` or
`i < -count` — stated as an iff on the error flag and proved for the
slice axis of a 3D volume, for the slice axis of a 4D volume (frame
selector All, `T > 0`), and for the frame axis of a 4D volume (slice
selector All for the success direction; any slice selector for the
failure direction).  In particular in-range indices, including negative
ones in `[-count, -2]` which wrap around (C10), do not fail; `-1` is the
All sentinel and a frame index on a 3D volume is ignored (C8). -/
theorem index_oob_amended {α : Type} :
    (∀ (v : Vol3D α) (dir stem ftype : String) (i : Int), i ≠ -1 →
      (((runNii (Volume.v3 v) (Selector.idx (-1)) (Selector.idx i) dir stem ftype).2 = true) ↔
        ((v.nz : Int) ≤ i ∨ i < -(v.nz : Int))) ∧
      (((v.nz : Int) ≤ i ∨ i < -(v.nz : Int)) →
        runNii (Volume.v3 v) (Selector.idx (-1)) (Selector.idx i) dir stem ftype =
          ([], true))) ∧
    (∀ (v : Vol4D α) (dir stem ftype : String) (i : Int), i ≠ -1 → 0 < v.nt →
      (((runNii (Volume.v4 v) (Selector.idx (-1)) (Selector.idx i) dir stem ftype).2 = true) ↔
        ((v.nz : Int) ≤ i ∨ i < -(v.nz : Int))) ∧
      (((v.nz : Int) ≤ i ∨ i < -(v.nz : Int)) →
        runNii (Volume.v4 v) (Selector.idx (-1)) (Selector.idx i) dir stem ftype =
          ([], true))) ∧
    (∀ (v : Vol4D α) (dir stem ftype : String) (i : Int), i ≠ -1 →
      (((runNii (Volume.v4 v) (Selector.idx i) (Selector.idx (-1)) dir stem ftype).2 = true) ↔
        ((v.nt : Int) ≤ i ∨ i < -(v.nt : Int))) ∧
      (((v.nt : Int) ≤ i ∨ i < -(v.nt : Int)) → ∀ sliceSel : Selector,
        runNii (Volume.v4 v) (Selector.idx i) sliceSel dir stem ftype = ([], true))) := by
  refine ⟨?_, ?_, ?_⟩
  · intro v dir stem ftype i hne
    have hrange : sliceRangeOf (Volume.v3 v) (Selector.idx i) = [i] := by
      unfold sliceRangeOf
      rw [show volNz (Volume.v3 v) = v.nz from rfl, selBounds_idx_ne v.nz hne]
      exact intRange_succ_self i
    have hfail : ((v.nz : Int) ≤ i ∨ i < -(v.nz : Int)) →
        runNii (Volume.v3 v) (Selector.idx (-1)) (Selector.idx i) dir stem ftype =
          ([], true) := by
      intro hoob
      rw [runNii_v3, hrange]
      simp only [sliceLoop]
      rw [if_pos hoob]
    have hsucc : ¬((v.nz : Int) ≤ i ∨ i < -(v.nz : Int)) →
        (runNii (Volume.v3 v) (Selector.idx (-1)) (Selector.idx i) dir stem ftype).2 =
          false := by
      intro hin
      rw [runNii_v3, hrange, sliceLoop_ok v none dir stem ftype [i]
        (fun j hj => by rw [List.mem_singleton] at hj; subst hj; omega)]
    refine ⟨⟨fun h2 => ?_, fun hoob => by rw [hfail hoob]⟩, hfail⟩
    by_contra hcon
    rw [hsucc hcon] at h2
    exact Bool.noConfusion h2
  · intro v dir stem ftype i hne hnt
    have hdef : runNii (Volume.v4 v) (Selector.idx (-1)) (Selector.idx i) dir stem ftype =
        frameLoop (Volume.v4 v) (Selector.idx i) dir stem ftype
          (intRange 0 (v.nt : Int)) := rfl
    have hfail : ((v.nz : Int) ≤ i ∨ i < -(v.nz : Int)) →
        runNii (Volume.v4 v) (Selector.idx (-1)) (Selector.idx i) dir stem ftype =
          ([], true) := by
      intro hoob
      obtain ⟨rest, hrest⟩ := intRange_zero_pos_cons v.nt hnt
      rw [hdef, hrest]
      exact frameLoop_v4_cons_slice_oob v dir stem ftype i hne hoob hnt rest
    have hsucc : ¬((v.nz : Int) ≤ i ∨ i < -(v.nz : Int)) →
        (runNii (Volume.v4 v) (Selector.idx (-1)) (Selector.idx i) dir stem ftype).2 =
          false := by
      intro hin
      rw [hdef]
      exact frameLoop_v4_slice_single_ok v dir stem ftype i hne (by omega) _
        (fun f hf => by have := mem_intRange hf; omega)
    refine ⟨⟨fun h2 => ?_, fun hoob => by rw [hfail hoob]⟩, hfail⟩
    by_contra hcon
    rw [hsucc hcon] at h2
    exact Bool.noConfusion h2
  · intro v dir stem ftype i hne
    have hrange : frameRangeOf (Volume.v4 v) (Selector.idx i) = [i] := by
      unfold frameRangeOf
      rw [show frameCountOf (Volume.v4 v) = v.nt from rfl, selBounds_idx_ne v.nt hne]
      exact intRange_succ_self i
    have hfail : ((v.nt : Int) ≤ i ∨ i < -(v.nt : Int)) → ∀ sliceSel : Selector,
        runNii (Volume.v4 v) (Selector.idx i) sliceSel dir stem ftype = ([], true) := by
      intro hoob sliceSel
      rw [show runNii (Volume.v4 v) (Selector.idx i) sliceSel dir stem ftype =
          frameLoop (Volume.v4 v) sliceSel dir stem ftype
            (frameRangeOf (Volume.v4 v) (Selector.idx i)) from rfl]
      rw [hrange]
      simp only [frameLoop]
      rw [if_pos hoob]
    have hsucc : ¬((v.nt : Int) ≤ i ∨ i < -(v.nt : Int)) →
        (runNii (Volume.v4 v) (Selector.idx i) (Selector.idx (-1)) dir stem ftype).2 =
          false := by
      intro hin
      rw [show runNii (Volume.v4 v) (Selector.idx i) (Selector.idx (-1)) dir stem ftype =
          frameLoop (Volume.v4 v) (Selector.idx (-1)) dir stem ftype
            (frameRangeOf (Volume.v4 v) (Selector.idx i)) from rfl]
      rw [hrange]
      exact frameLoop_v4_single_frame_all v dir stem ftype i hin
    refine ⟨⟨fun h2 => ?_, fun hoob => by rw [hfail hoob (Selector.idx (-1))]⟩, hfail⟩
    by_contra hcon
    rw [hsucc hcon] at h2
    exact Bool.noConfusion h2

/-- Witness for C4 (amended), exercising all three parts: slice 5 on the
3D shape-(1,1,3) volume fails with zero jobs; slice 5 on the 4D
shape-(1,1,2,2) volume fails with zero jobs; and the frame-axis iff at
the in-range wrapping index -2 on the 4D volume shows no failure. -/
theorem index_oob_amended_witness :
    ((5 : Int) ≠ -1 ∧
      (((runNii (Volume.v3 vol113) (Selector.idx (-1)) (Selector.idx 5) "d" "s" "png").2 =
          true) ↔ ((vol113.nz : Int) ≤ 5 ∨ (5 : Int) < -(vol113.nz : Int))) ∧
      runNii (Volume.v3 vol113) (Selector.idx (-1)) (Selector.idx 5) "d" "s" "png" =
        ([], true)) ∧
    (0 < vol1122.nt ∧
      (((runNii (Volume.v4 vol1122) (Selector.idx (-1)) (Selector.idx 5) "d" "s" "png").2 =
          true) ↔ ((vol1122.nz : Int) ≤ 5 ∨ (5 : Int) < -(vol1122.nz : Int))) ∧
      runNii (Volume.v4 vol1122) (Selector.idx (-1)) (Selector.idx 5) "d" "s" "png" =
        ([], true)) ∧
    ((-2 : Int) ≠ -1 ∧
      (((runNii (Volume.v4 vol1122) (Selector.idx (-2)) (Selector.idx (-1)) "d" "s" "png").2 =
          true) ↔ ((vol1122.nt : Int) ≤ -2 ∨ (-2 : Int) < -(vol1122.nt : Int)))) :=
  ⟨⟨by decide,
    (index_oob_amended.1 vol113 "d" "s" "png" 5 (by decide)).1,
    (index_oob_amended.1 vol113 "d" "s" "png" 5 (by decide)).2 (by decide)⟩,
   ⟨by decide,
    (index_oob_amended.2.1 vol1122 "d" "s" "png" 5 (by decide) (by decide)).1,
    (index_oob_amended.2.1 vol1122 "d" "s" "png" 5 (by decide) (by decide)).2 (by decide)⟩,
   ⟨by decide,
    (index_oob_amended.2.2 vol1122 "d" "s" "png" (-2) (by decide)).1⟩⟩

theorem length_flatMap_const {β γ : Type} (l : List β) (g : β → List γ) (n : Nat)
    (h : ∀ b ∈ l, (g b).length = n) : (l.flatMap g).length = l.length * n := by
  induction l with
  | nil => simp
  | cons b bs ih =>
    rw [List.flatMap_cons, List.length_append, h b (List.mem_cons_self b bs),
        ih (fun x hx => h x (List.mem_cons_of_mem b hx)), List.length_cons]
    ring

theorem frameLoop_v4_all {α : Type} (v : Vol4D α) (dir stem ftype : String) :
    ∀ fl : List Int, (∀ f ∈ fl, 0 ≤ f ∧ f < (v.nt : Int)) →
      frameLoop (Volume.v4 v) (Selector.idx (-1)) dir stem ftype fl =
        (fl.flatMap (fun f => (intRange 0 (v.nz : Int)).map
          (emitJob (frameVol v f.toNat) (some f) dir stem ftype)), false)
  | [], _ => rfl
  | f :: fs, h => by
    have hf := h f (List.mem_cons_self f fs)
    have hrec := frameLoop_v4_all v dir stem ftype fs
      (fun j hj => h j (List.mem_cons_of_mem f hj))
    simp only [frameLoop]
    rw [if_neg (by omega : ¬((v.nt : Int) ≤ f ∨ f < -(v.nt : Int)))]
    rw [if_neg (by omega : ¬ f < 0)]
    rw [show selBounds (Selector.idx (-1)) (frameVol v f.toNat).nz =
        (0, ((frameVol v f.toNat).nz : Int)) from rfl]
    rw [sliceLoop_ok (frameVol v f.toNat) (some f) dir stem ftype _
      (fun i hi => by have := mem_intRange hi; omega)]
    rw [hrec, show ((frameVol v f.toNat).nz : Int) = (v.nz : Int) from rfl]
    simp [List.flatMap_cons]

/-- C2: for every 4D volume of shape (X, Y, Z, T) with frame selector All
and slice selector All, the run raises no error and emits exactly `T * Z`
jobs, enumerated frame-major then slice-minor with both indices
ascending, the job for frame `f` and slice `z` having filename
`dir/stem-frame{f:03d}-slice{z:03d}.{ftype}`. -/
theorem run4D_all_frames_slices {α : Type} (v : Vol4D α) (dir stem ftype : String) :
    (runNii (Volume.v4 v) (Selector.idx (-1)) (Selector.idx (-1)) dir stem ftype).2 = false ∧
    (runNii (Volume.v4 v) (Selector.idx (-1)) (Selector.idx (-1)) dir stem ftype).1.length =
      v.nt * v.nz ∧
    (runNii (Volume.v4 v) (Selector.idx (-1)) (Selector.idx (-1)) dir stem ftype).1.map
        (fun j => (j.frame, j.slice)) =
      (List.range v.nt).flatMap (fun (f : Nat) =>
        (List.range v.nz).map (fun (z : Nat) => (some (f : Int), (z : Int)))) ∧
    ∀ j ∈ (runNii (Volume.v4 v) (Selector.idx (-1)) (Selector.idx (-1)) dir stem ftype).1,
      ∀ f : Int, j.frame = some f →
        j.filename = dir ++ "/" ++ stem ++ "-frame" ++ fmt03d f ++ "-slice" ++
          fmt03d j.slice ++ "." ++ ftype := by
  have hrun : runNii (Volume.v4 v) (Selector.idx (-1)) (Selector.idx (-1)) dir stem ftype =
      ((intRange 0 (v.nt : Int)).flatMap (fun f => (intRange 0 (v.nz : Int)).map
        (emitJob (frameVol v f.toNat) (some f) dir stem ftype)), false) := by
    rw [show runNii (Volume.v4 v) (Selector.idx (-1)) (Selector.idx (-1)) dir stem ftype =
        frameLoop (Volume.v4 v) (Selector.idx (-1)) dir stem ftype
          (intRange 0 (v.nt : Int)) from rfl]
    exact frameLoop_v4_all v dir stem ftype _
      (fun f hf => by have := mem_intRange hf; omega)
  refine ⟨by rw [hrun], ?_, ?_, ?_⟩
  · rw [hrun]
    have hlen := length_flatMap_const (intRange 0 (v.nt : Int))
      (fun f => (intRange 0 (v.nz : Int)).map
        (emitJob (frameVol v f.toNat) (some f) dir stem ftype)) v.nz
      (fun b _ => by rw [List.length_map, length_intRange_zero])
    rw [length_intRange_zero] at hlen
    exact hlen
  · rw [hrun]
    show ((intRange 0 (v.nt : Int)).flatMap _).map _ = _
    rw [List.map_flatMap, intRange_zero_natCast v.nt, List.flatMap_map]
    refine congrArg _ (funext fun k => ?_)
    rw [intRange_zero_natCast v.nz, List.map_map, List.map_map]
    rfl
  · intro j hj f hf
    rw [hrun] at hj
    obtain ⟨a, _, hj2⟩ := List.mem_flatMap.1 hj
    obtain ⟨i, _, rfl⟩ := List.mem_map.1 hj2
    have ha : a = f := Option.some.inj hf
    subst ha
    rfl

theorem step_analysis {α : Type} (r rest : List (Job α) × Bool)
    (h : (if r.2 = true then (r.1, true) else (r.1 ++ rest.1, rest.2)).2 = false) :
    r.2 = false ∧ rest.2 = false ∧
      (if r.2 = true then (r.1, true) else (r.1 ++ rest.1, rest.2)).1 = r.1 ++ rest.1 := by
  cases hr : r.2
  · rw [if_neg (by simp [hr])] at h ⊢
    exact ⟨rfl, h, rfl⟩
  · rw [if_pos (by simp [hr])] at h
    exact absurd h (by simp)

theorem step_fst_empty {α : Type} (r rest : List (Job α) × Bool)
    (h1 : r.1 = []) (h2 : rest.1 = []) :
    (if r.2 = true then (r.1, true) else (r.1 ++ rest.1, rest.2)).1 = [] := by
  cases hr : r.2
  · rw [if_neg (by simp [hr])]
    simp [h1, h2]
  · rw [if_pos (by simp [hr])]
    exact h1

theorem frameLoop_len_noerr {α : Type} (vol : Volume α) (ssel : Selector)
    (dir stem ftype : String) :
    ∀ fl : List Int, (frameLoop vol ssel dir stem ftype fl).2 = false →
      (frameLoop vol ssel dir stem ftype fl).1.length =
        fl.length * (sliceRangeOf vol ssel).length
  | [], _ => by simp [frameLoop]
  | f :: fs, h => by
    have hrec := frameLoop_len_noerr vol ssel dir stem ftype fs
    rcases vol with v | v
    · simp only [frameLoop] at h ⊢
      obtain ⟨h1, h2, h3⟩ := step_analysis _ _ h
      rw [h3, List.length_append, sliceLoop_length _ _ _ _ _ _ h1, hrec h2]
      show (sliceRangeOf (Volume.v3 v) ssel).length +
        fs.length * (sliceRangeOf (Volume.v3 v) ssel).length =
        (f :: fs).length * (sliceRangeOf (Volume.v3 v) ssel).length
      simp only [List.length_cons]
      ring
    · simp only [frameLoop] at h ⊢
      by_cases hb : (v.nt : Int) ≤ f ∨ f < -(v.nt : Int)
      · rw [if_pos hb] at h
        exact absurd h (by simp)
      · rw [if_neg hb] at h ⊢
        obtain ⟨h1, h2, h3⟩ := step_analysis _ _ h
        rw [h3, List.length_append, sliceLoop_length _ _ _ _ _ _ h1, hrec h2]
        show (sliceRangeOf (Volume.v4 v) ssel).length +
          fs.length * (sliceRangeOf (Volume.v4 v) ssel).length =
          (f :: fs).length * (sliceRangeOf (Volume.v4 v) ssel).length
        simp only [List.length_cons]
        ring

theorem frameLoop_nz_zero {α : Type} (vol : Volume α) (ssel : Selector)
    (dir stem ftype : String) (hz : volNz vol = 0) :
    ∀ fl : List Int, (frameLoop vol ssel dir stem ftype fl).1 = []
  | [] => by simp [frameLoop]
  | f :: fs => by
    have hrec := frameLoop_nz_zero vol ssel dir stem ftype hz fs
    rcases vol with v | v
    · have hz3 : v.nz = 0 := hz
      simp only [frameLoop]
      exact step_fst_empty _ _ (sliceLoop_nz_zero _ _ _ _ _ hz3 _) hrec
    · have hz3 : v.nz = 0 := hz
      simp only [frameLoop]
      by_cases hb : (v.nt : Int) ≤ f ∨ f < -(v.nt : Int)
      · rw [if_pos hb]
      · rw [if_neg hb]
        exact step_fst_empty _ _ (sliceLoop_nz_zero _ _ _ _ _ hz3 _) hrec

theorem frameLoop_nt_zero {α : Type} (v : Vol4D α) (hz : v.nt = 0) (ssel : Selector)
    (dir stem ftype : String) :
    ∀ fl : List Int, (frameLoop (Volume.v4 v) ssel dir stem ftype fl).1 = []
  | [] => rfl
  | f :: _ => by
    simp only [frameLoop]
    rw [if_pos (by omega : (v.nt : Int) ≤ f ∨ f < -(v.nt : Int))]

/-- Counterexample to C5 as stated: on the shape-(1,1,0) volume with the
Middle slice selector, the frame range has length 1 and the per-frame
slice range has length 1 (the fabricated index 0), so the claimed product
is 1 — but the run raises an `IndexError` and emits 0 jobs. -/
theorem job_count_claim_cex :
    (runNii (Volume.v3 vol110) (Selector.idx (-1)) Selector.mid "d" "s" "png").1.length = 0 ∧
    (runNii (Volume.v3 vol110) (Selector.idx (-1)) Selector.mid "d" "s" "png").2 = true ∧
    (frameRangeOf (Volume.v3 vol110) (Selector.idx (-1))).length *
      (sliceRangeOf (Volume.v3 vol110) Selector.mid).length = 1 := by
  decide

/-- C5 (amended): for every run that raises no `IndexError`, the number
of emitted jobs equals the length of the frame range times the length of
the per-frame slice range; and a zero-length slice axis or frame axis
yields zero emitted jobs under every selector (for All the range itself
is empty; for Middle or an explicit index the fabricated index raises an
`IndexError` before any job is emitted). -/
theorem job_count_amended {α : Type} (vol : Volume α) (frameSel sliceSel : Selector)
    (dir stem ftype : String) :
    ((runNii vol frameSel sliceSel dir stem ftype).2 = false →
      (runNii vol frameSel sliceSel dir stem ftype).1.length =
        (frameRangeOf vol frameSel).length * (sliceRangeOf vol sliceSel).length) ∧
    (volNz vol = 0 → (runNii vol frameSel sliceSel dir stem ftype).1 = []) ∧
    (frameCountOf vol = 0 → (runNii vol frameSel sliceSel dir stem ftype).1 = []) := by
  have hdef : runNii vol frameSel sliceSel dir stem ftype =
      frameLoop vol sliceSel dir stem ftype (frameRangeOf vol frameSel) := rfl
  refine ⟨?_, ?_, ?_⟩
  · intro h2
    rw [hdef] at h2 ⊢
    exact frameLoop_len_noerr vol sliceSel dir stem ftype _ h2
  · intro hz
    rw [hdef]
    exact frameLoop_nz_zero vol sliceSel dir stem ftype hz _
  · intro hc
    rcases vol with v | v
    · simp [frameCountOf] at hc
    · exact frameLoop_nt_zero v hc sliceSel dir stem ftype _

/-- Witness for C5 (amended): the product law on the shape-(1,1,2,2)
volume with both selectors All (4 jobs = 2 × 2), and the empty-axis
clause on the shape-(1,1,0) volume with Middle selectors. -/
theorem job_count_amended_witness :
    ((runNii (Volume.v4 vol1122) (Selector.idx (-1)) (Selector.idx (-1)) "d" "s" "png").2 =
        false ∧
      (runNii (Volume.v4 vol1122) (Selector.idx (-1)) (Selector.idx (-1)) "d" "s" "png").1.length =
        (frameRangeOf (Volume.v4 vol1122) (Selector.idx (-1))).length *
          (sliceRangeOf (Volume.v4 vol1122) (Selector.idx (-1))).length) ∧
    (volNz (Volume.v3 vol110) = 0 ∧
      (runNii (Volume.v3 vol110) Selector.mid Selector.mid "d" "s" "png").1 = []) :=
  ⟨⟨by decide, (job_count_amended (Volume.v4 vol1122) (Selector.idx (-1)) (Selector.idx (-1))
      "d" "s" "png").1 (by decide)⟩,
   ⟨by decide, (job_count_amended (Volume.v3 vol110) Selector.mid Selector.mid
      "d" "s" "png").2.1 (by decide)⟩⟩

/-- Counterexample to C6 as stated: the stem `"out.jpg"` with no explicit
type resolves to the type `".jpg"` (leading dot kept), not `"jpg"`; and
the stem `"out.jpg"` with explicit type `"png"` yields the filename
`"d/out.jpg-slice000.png"` — the stem's own extension is not stripped, so
no file named `"out.png"` (with slice suffix `"out-slice000.png"`) is
produced. -/
theorem ext_resolution_claim_cex :
    resolveOutputFileType "out.jpg" "" = ".jpg" ∧
    resolveOutputFileType "out.jpg" "" ≠ "jpg" ∧
    (runNii (Volume.v3 vol111) (Selector.idx (-1)) (Selector.idx (-1)) "d" "out.jpg"
        (resolveOutputFileType "out.jpg" "png")).1.map Job.filename =
      ["d/out.jpg-slice000.png"] ∧
    (runNii (Volume.v3 vol111) (Selector.idx (-1)) (Selector.idx (-1)) "d" "out.jpg"
        (resolveOutputFileType "out.jpg" "png")).1.map Job.filename ≠
      ["d/out-slice000.png"] := by
  refine ⟨by decide, by decide, by decide, by decide⟩

/-- C6 (amended): a non-empty explicit output type wins and is used as
given (the formatted filename appends it after a literal dot); with no
explicit type, a stem extension is used including its leading dot (so
formatted filenames carry a doubled dot), and `".png"` is the fallback
when neither is present.  The stem itself appears verbatim in filenames,
its extension not stripped: stem `"out.jpg"` with explicit type `"png"`
produces `"d/out.jpg-slice000.png"`. -/
theorem ext_resolution_amended (stem t : String) :
    (t ≠ "" → resolveOutputFileType stem t = t) ∧
    (t = "" → (splitext stem).2 ≠ "" → resolveOutputFileType stem t = (splitext stem).2) ∧
    (t = "" → (splitext stem).2 = "" → resolveOutputFileType stem t = ".png") ∧
    (runNii (Volume.v3 vol111) (Selector.idx (-1)) (Selector.idx (-1)) "d" "out.jpg"
        (resolveOutputFileType "out.jpg" "png")).1.map Job.filename =
      ["d/out.jpg-slice000.png"] := by
  refine ⟨?_, ?_, ?_, by decide⟩
  · intro ht
    have hdot : ("." ++ t) ≠ "" := by
      intro hcontra
      have := congrArg String.data hcontra
      rw [String.data_append] at this
      exact absurd this (by simp)
    simp only [resolveOutputFileType]
    rw [if_pos ht, if_neg (by simp [ht]), if_neg (by simp [ht])]
  · rintro rfl he
    simp only [resolveOutputFileType]
    split_ifs <;> simp_all
  · rintro rfl he
    simp only [resolveOutputFileType]
    split_ifs <;> simp_all

/-- Witness for C6 (amended) at stem `"a.b"` with explicit type `"c"`
and at stem `"plain"` with no type. -/
theorem ext_resolution_amended_witness :
    (("c" : String) ≠ "" ∧ resolveOutputFileType "a.b" "c" = "c") ∧
    ((splitext "plain").2 = "" ∧ resolveOutputFileType "plain" "" = ".png") :=
  ⟨⟨by decide, (ext_resolution_amended "a.b" "c").1 (by decide)⟩,
   ⟨by decide, (ext_resolution_amended "plain" "").2.2.1 rfl (by decide)⟩⟩
